/-
Verification of the ABC/XYZ SKU classification engine
(scripts/classify_skus.py) against its specification.

The spreadsheet boundary supplies rows of typed cells; we model a cell as
number, text, date or empty, numbers as exact rationals, and translate each
parser / classifier of the script into a Lean function over that model.
-/
import Mathlib

attribute [local semireducible] Rat.add Rat.mul Rat.inv Rat.sub Rat.ofScientific

/-- Whitespace trim on both ends, Python strip, written over the character
list so that concrete instances evaluate inside the kernel. -/
def strTrim (s : String) : String :=
  String.mk
    (((s.data.dropWhile Char.isWhitespace).reverse.dropWhile Char.isWhitespace).reverse)

/-- Lower-casing, Python lower, over the character list. -/
def strLower (s : String) : String :=
  String.mk (s.data.map Char.toLower)

/-- Python startswith over the character list. -/
def strStarts (s p : String) : Bool :=
  p.data.isPrefixOf s.data

/-- Fuel-driven body of strReplace: replace every non-overlapping occurrence
of the pattern, scanning left to right. -/
def replaceAux (pat repl : List Char) : ℕ → List Char → List Char
  | 0, l => l
  | _ + 1, [] => []
  | fuel + 1, c :: t =>
    if pat.isPrefixOf (c :: t) then
      repl ++ replaceAux pat repl fuel ((c :: t).drop pat.length)
    else c :: replaceAux pat repl fuel t

/-- Python replace with a non-empty pattern. -/
def strReplace (s pat repl : String) : String :=
  String.mk (replaceAux pat.data repl.data s.data.length s.data)

/-- Split a character list at every occurrence of a separator character,
Python split with an explicit separator. -/
def splitChar (sep : Char) : List Char → List (List Char)
  | [] => [[]]
  | c :: t =>
    match splitChar sep t with
    | [] => [[]]
    | h :: r => if c == sep then [] :: h :: r else (c :: h) :: r

/-- Decimal digits to a natural number, none when empty or non-numeric. -/
def digitsToNat (l : List Char) : Option ℕ :=
  if l ≠ [] ∧ l.all (fun c => c.isDigit) then
    some (l.foldl (fun acc c => acc * 10 + (c.toNat - 48)) 0)
  else none

/-- Model of one spreadsheet cell as delivered by the reader boundary:
a numeric value, a text value, a date, or an empty cell (Python None). -/
inductive Cell : Type where
  | num (q : ℚ)
  | text (s : String)
  | date (y m d : ℕ)
  | empty
deriving DecidableEq, Repr

/-- Substring test on character lists, mirroring the Python `in` operator
on strings (empty needle is contained in everything). -/
def listContains (needle : List Char) : List Char → Bool
  | [] => needle.isEmpty
  | c :: t => needle.isPrefixOf (c :: t) || listContains needle t

/-- Python `needle in hay` on strings. -/
def containsStr (hay needle : String) : Bool :=
  listContains needle.data hay.data

/-- Python `str(cell or '')`: empty cells and the falsy number 0 render as
the empty string; other values render as a non-empty text form.  The exact
decimal spelling of numbers and dates is irrelevant to the engine (it only
compares these strings against fixed labels and emptiness), so we use the
canonical rational / slash-date rendering. -/
def pyStr : Cell → String
  | .num q => if q = 0 then "" else toString q
  | .text s => s
  | .date y m d => toString m ++ "/" ++ toString d ++ "/" ++ toString y
  | .empty => ""

/-- Test that a cell holds a number (Python isinstance(x, (int, float))). -/
def isNumCell : Cell → Bool
  | .num _ => true
  | _ => false

/-- Test that a cell is empty (Python `x is None`). -/
def isEmptyCell : Cell → Bool
  | .empty => true
  | _ => false

/-- Python `row[i] if len(row) > i and isinstance(row[i], (int, float)) else 0`:
numeric cell content at a fixed column, defaulting to zero. -/
def numAt (row : List Cell) (i : ℕ) : ℚ :=
  match row.getD i .empty with
  | .num q => q
  | _ => 0

/-- Python `int(q)`: truncation toward zero. -/
def pyInt (q : ℚ) : ℤ :=
  if 0 ≤ q then ⌊q⌋ else ⌈q⌉

/-- SUPPLIER_MAP from the script, in declaration order. -/
def SUPPLIER_MAP : List (String × String) :=
  [("alliance metal changzhou", "AMC"),
   ("amc", "AMC"),
   ("hx/ whi", "HX"),
   ("hx/whi", "HX"),
   ("zhongxing", "ZhongXing"),
   ("zhong xing", "ZhongXing"),
   ("tianjin", "TianJin"),
   ("tianjin/whi", "TianJin"),
   ("tianijn", "TianJin"),
   ("winschem", "WINSCHEM"),
   ("changzhou winschem", "WINSCHEM"),
   ("changzhou nuode", "Nuode"),
   ("nuode", "Nuode")]

/-- resolve_supplier: first configured alias occurring as a substring of the
lower-cased, trimmed label wins; otherwise the trimmed label passes through. -/
def resolve_supplier (raw_name : String) : String :=
  let lower := strTrim (strLower raw_name)
  match SUPPLIER_MAP.find? (fun p => containsStr lower p.1) with
  | some p => p.2
  | none => strTrim raw_name

/-- Python `s.rstrip(\x22GT\x22)`: removes ALL trailing characters drawn from
the set containing G and T (not merely one GT suffix). -/
def rstripGT (s : String) : String :=
  String.mk ((s.data.reverse.dropWhile (fun c => c == 'G' || c == 'T')).reverse)

/-- Whether the final character of a string is G or T. -/
def endsGT (s : String) : Bool :=
  match s.data.reverse.head? with
  | some c => c == 'G' || c == 'T'
  | none => false

/-- Coefficient-of-variation field: unset (Python None), a finite value, or
the float infinity sentinel. -/
inductive CVal : Type where
  | noneV
  | fin (x : ℝ)
  | infV

/-- Monthly demand histogram: year-month key to accumulated quantity out. -/
abbrev Hist := List ((ℕ × ℕ) × ℚ)

/-- SKUData: the per-SKU aggregate record of the script, field for field,
with the same initial values as the Python constructor. -/
structure SKUData where
  sku_code : String
  supplier : String := ""
  warehouse : String := ""
  avg_ship_wk : ℚ := 0
  wks_on_hand : ℚ := 0
  beginning_inv : ℚ := 0
  ending_inv : ℚ := 0
  received : ℚ := 0
  shipments : ℚ := 0
  unit_cost : ℚ := 0
  weight_lbs : ℚ := 0
  length_in : ℚ := 0
  width_in : ℚ := 0
  height_in : ℚ := 0
  dim_uom_units : ℚ := 1
  annual_value : ℚ := 0
  monthly_qty_out : Hist := []
  cv : CVal := .noneV
  abc_class : String := ""
  xyz_class : String := ""
  xyz_estimated : Bool := false

/-- One item-master entry produced by parse_view_item. -/
structure ViewItem where
  cost : ℚ
  description : String := ""
  weight_lbs : ℚ := 0
  length_in : ℚ := 0
  width_in : ℚ := 0
  height_in : ℚ := 0
  dim_uom_units : ℚ := 1
  supplier : String := ""
deriving DecidableEq, Repr

/-- Insertion-ordered dictionary write: replace the value in place when the
key exists, append otherwise (Python dict assignment). -/
def putAssoc {α : Type} (l : List (String × α)) (k : String) (v : α) :
    List (String × α) :=
  match l with
  | [] => [(k, v)]
  | (k1, v1) :: t => if k1 = k then (k, v) :: t else (k1, v1) :: putAssoc t k v

/-- Dictionary read by SKU code over the insertion-ordered record list. -/
def findSKU (l : List SKUData) (c : String) : Option SKUData :=
  l.find? (fun s => s.sku_code == c)

/-- In-place update of the record with the given code. -/
def replaceSKU (l : List SKUData) (c : String) (v : SKUData) : List SKUData :=
  l.map (fun s => if s.sku_code = c then v else s)

/-- Merge block of parse_depletion for a SKU code seen before: counters and
weekly velocity accumulate; weeks-on-hand and warehouse are overwritten when
the new weekly-shipment value exceeds the freshly accumulated total minus
itself (the comparison happens after the addition, as in the script). -/
def mergeSighting (ex : SKUData) (wh : String)
    (avg woh beg recv shp ed : ℚ) : SKUData :=
  let ex1 := { ex with
    avg_ship_wk := ex.avg_ship_wk + avg,
    beginning_inv := ex.beginning_inv + beg,
    ending_inv := ex.ending_inv + ed,
    received := ex.received + recv,
    shipments := ex.shipments + shp }
  if avg > ex1.avg_ship_wk - avg then
    { ex1 with wks_on_hand := woh, warehouse := wh }
  else ex1

/-- State of the depletion sheet reader. -/
structure DepState where
  current_warehouse : String := ""
  current_supplier : String := ""
  skus : List SKUData := []

/-- Row transition of parse_depletion. -/
def depletionStep (st : DepState) (row : List Cell) : DepState :=
  let cell0 := strTrim (pyStr (row.getD 0 .empty))
  if strStarts cell0 "Warehouse:" then
    { st with current_warehouse := strTrim (strReplace cell0 "Warehouse:" "") }
  else if cell0 = "" || cell0 = "SKU" || strStarts cell0 "Total" ||
      strStarts cell0 "Grand" || strStarts cell0 "Item Activity" then
    st
  else if isEmptyCell (row.getD 2 .empty) &&
      (containsStr (pyStr (row.getD 3 .empty)) "Item Activity From" ||
       !((List.range' 2 16).any
          (fun i => decide (i < row.length) && isNumCell (row.getD i .empty)))) then
    { st with current_supplier := resolve_supplier cell0 }
  else
    let avg := numAt row 16
    let woh := numAt row 17
    let beg := numAt row 2
    let recv := numAt row 5
    let shp := numAt row 9
    let ed := numAt row 13
    match findSKU st.skus cell0 with
    | some ex =>
      let merged := mergeSighting ex st.current_warehouse avg woh beg recv shp ed
      { st with skus := replaceSKU st.skus cell0 merged }
    | none =>
      { st with skus := st.skus ++
          [{ sku_code := cell0,
             supplier := st.current_supplier,
             warehouse := st.current_warehouse,
             avg_ship_wk := avg,
             wks_on_hand := woh,
             beginning_inv := (pyInt beg : ℚ),
             ending_inv := (pyInt ed : ℚ),
             received := (pyInt recv : ℚ),
             shipments := (pyInt shp : ℚ) }] }

/-- parse_depletion over the single sheet of the depletion source. -/
def parse_depletion (rows : List (List Cell)) : List SKUData :=
  (rows.foldl depletionStep {}).skus

/-- State of the item master reader (per sheet, items shared across sheets). -/
structure VIState where
  current_sku : Option String := none
  supplier_name : String := ""
  next_is_dimensions : Bool := false
  items : List (String × ViewItem) := []

/-- Label starts skipped by parse_view_item. -/
def skipLabels : List String :=
  ["SKU", "Dimensional", "Storage", "Track By", "View Item"]

/-- Row transition of parse_view_item. -/
def viStep (st : VIState) (row : List Cell) : VIState :=
  let cell0 := strTrim (pyStr (row.getD 0 .empty))
  if skipLabels.any (fun p => strStarts cell0 p) then
    { st with next_is_dimensions := decide (cell0 = "Dimensional UOM") }
  else if cell0 ≠ "" then
    match row.getD 9 .empty with
    | .num c =>
      if c > 0 then
        let item : ViewItem :=
          { cost := c,
            description := pyStr (row.getD 1 .empty),
            supplier := resolve_supplier st.supplier_name }
        { st with next_is_dimensions := false,
                  current_sku := some cell0,
                  items := putAssoc st.items cell0 item }
      else
        { st with next_is_dimensions := false, supplier_name := cell0 }
    | _ =>
      { st with next_is_dimensions := false, supplier_name := cell0 }
  else
    match st.current_sku with
    | some sk =>
      match st.items.lookup sk with
      | some item =>
        if st.next_is_dimensions then
          let dim_uom := strTrim (pyStr (row.getD 2 .empty))
          let dim_units := numAt row 3
          let len := numAt row 6
          let wid := numAt row 7
          let hei := numAt row 8
          let wt := numAt row 10
          if dim_uom ≠ "" ∧ dim_units ≠ 0 then
            if len > 0 ∧ item.length_in = 0 then
              let upd := { item with
                length_in := len, width_in := wid, height_in := hei,
                weight_lbs := wt, dim_uom_units := dim_units }
              { st with next_is_dimensions := false,
                        items := putAssoc st.items sk upd }
            else { st with next_is_dimensions := false }
          else { st with next_is_dimensions := false }
        else st
      | none => st
    | none => st

/-- parse_view_item over every sheet of the item-view source; the item
dictionary is shared, the per-sheet context restarts on each sheet. -/
def parse_view_item (sheets : List (List (List Cell))) :
    List (String × ViewItem) :=
  sheets.foldl
    (fun items sheet => (sheet.foldl viStep { items := items }).items) []

/-- State of the activity transaction aggregator. -/
structure ActState where
  current_sku : Option String := none
  monthly_out : List (String × Hist) := []
  filtered_adjustments : ℕ := 0
  filtered_moves : ℕ := 0
  total_transactions : ℕ := 0

/-- Histogram bump: defaultdict(float) add of a quantity at a month key. -/
def bump (h : Hist) (k : ℕ × ℕ) (q : ℚ) : Hist :=
  match h with
  | [] => [(k, q)]
  | (k1, v) :: t => if k1 = k then (k1, v + q) :: t else (k1, v) :: bump t k q

/-- Outer defaultdict bump: add a quantity into the histogram of a SKU. -/
def bumpSku (m : List (String × Hist)) (sk : String) (k : ℕ × ℕ) (q : ℚ) :
    List (String × Hist) :=
  match m with
  | [] => [(sk, bump [] k q)]
  | (s, h) :: t =>
    if s = sk then (s, bump h k q) :: t else (s, h) :: bumpSku t sk k q

/-- SKU header detection of parse_activity_reports: a code-like text in the
second column together with a positive number in the fifth column. -/
def actHeaderCond (row : List Cell) : Bool :=
  let col1 := strTrim (pyStr (row.getD 1 .empty))
  col1 ≠ "" && col1 ≠ "Totals:" && col1 ≠ "SKU" && row.length > 4 &&
    (match row.getD 4 .empty with
     | .num q => decide (q > 0)
     | _ => false)

/-- Date-column labels that mark a row as not being a transaction. -/
def dateSkip (s : String) : Bool :=
  s = "" || s = "Activity Date" || s = "Beginning Balance" || s = "Ending Balance"

/-- Textual date parsing, Python strptime with format m/d/Y, returning the
year-month pair used for histogram keys. -/
def parseMDY (s : String) : Option (ℕ × ℕ) :=
  match (splitChar '/' s.data).map digitsToNat with
  | [some m, some d, some y] =>
    if 1 ≤ m ∧ m ≤ 12 ∧ 1 ≤ d ∧ d ≤ 31 then some (y, m) else none
  | _ => none

/-- Date of a transaction row: a native date cell is used directly, any
other cell goes through textual parsing of its string form. -/
def rowDate (c : Cell) : Option (ℕ × ℕ) :=
  match c with
  | .date y m _ => some (y, m)
  | _ => parseMDY (strTrim (pyStr c))

/-- Reference-number text of a row, lower-cased and trimmed. -/
def refOf (row : List Cell) : String :=
  strLower (strTrim (pyStr (row.getD 7 .empty)))

/-- Inventory-adjustment filter on the reference text. -/
def isAdjRef (ref : String) : Bool :=
  containsStr ref "adjust" || containsStr ref "adj"

/-- Warehouse-move filter on the reference text. -/
def isMoveRef (ref : String) : Bool :=
  strStarts ref "mv"

/-- Row transition of parse_activity_reports. -/
def actStep (st : ActState) (row : List Cell) : ActState :=
  if actHeaderCond row then
    { st with current_sku := some (strTrim (pyStr (row.getD 1 .empty))) }
  else
    match st.current_sku with
    | none => st
    | some sk =>
      let date_str := strTrim (pyStr (row.getD 5 .empty))
      if dateSkip date_str then st
      else
        match rowDate (row.getD 5 .empty) with
        | none => st
        | some (y, m) =>
          let ref := refOf row
          if isAdjRef ref then
            { st with filtered_adjustments := st.filtered_adjustments + 1 }
          else if isMoveRef ref then
            { st with filtered_moves := st.filtered_moves + 1 }
          else
            let qty := numAt row 10
            if qty > 0 then
              { st with monthly_out := bumpSku st.monthly_out sk (y, m) qty,
                        total_transactions := st.total_transactions + 1 }
            else st

/-- parse_activity_reports: all files accumulate into one shared histogram
map; the open SKU context restarts at each file boundary. -/
def parse_activity_reports (files : List (List (List Cell))) : ActState :=
  files.foldl (fun st file => file.foldl actStep { st with current_sku := none }) {}

/-- Three-variant key resolution shared by the master-data merge and the
cost lookup: exact key, then the key with all trailing G and T characters
stripped, then the key with GT appended; first hit wins. -/
def resolveItem (vi : List (String × ViewItem)) (code : String) :
    Option ViewItem :=
  match vi.lookup code with
  | some it => some it
  | none =>
    match vi.lookup (rstripGT code) with
    | some it => some it
    | none => vi.lookup (code ++ "GT")

/-- Cost lookup of compute_abc: the same three key variants, defaulting to
zero when all of them are absent. -/
def resolveCost (costs : List (String × ViewItem)) (code : String) : ℚ :=
  match costs.lookup code with
  | some it => it.cost
  | none =>
    match costs.lookup (rstripGT code) with
    | some it => it.cost
    | none =>
      match costs.lookup (code ++ "GT") with
      | some it => it.cost
      | none => 0

/-- Monthly histogram lookup of compute_xyz: fall through on EMPTY results
(not merely absent keys), over the same three key variants. -/
def resolveMonthly (md : List (String × Hist)) (code : String) : Hist :=
  let m1 := (md.lookup code).getD []
  let m2 := if m1 = [] then (md.lookup (rstripGT code)).getD [] else m1
  if m2 = [] then (md.lookup (code ++ "GT")).getD [] else m2

/-- merge_master_data: resolve the item-master entry of every record and,
on success, overwrite cost, weight and dimensions, adopting the item-master
supplier only when the record still has none. -/
def merge_master_data (skus : List SKUData) (vi : List (String × ViewItem)) :
    List SKUData :=
  skus.map (fun s =>
    match resolveItem vi s.sku_code with
    | some it =>
      { s with unit_cost := it.cost,
               weight_lbs := it.weight_lbs,
               length_in := it.length_in,
               width_in := it.width_in,
               height_in := it.height_in,
               dim_uom_units := it.dim_uom_units,
               supplier := if s.supplier = "" then it.supplier else s.supplier }
    | none => s)

/-- ABC threshold for class A: top 80 percent of cumulative value. -/
def ABC_A_THRESHOLD : ℚ := 8/10

/-- ABC threshold for class B: up to 96 percent of cumulative value. -/
def ABC_B_THRESHOLD : ℚ := 96/100

/-- Class chosen by the cumulative-share thresholds of compute_abc. -/
def thresholdClass (pct : ℚ) : String :=
  if pct ≤ ABC_A_THRESHOLD then "A"
  else if pct ≤ ABC_B_THRESHOLD then "B"
  else "C"

/-- Threshold walk of compute_abc over the value-sorted records, carrying
the cumulative value accumulated so far. -/
def abcWalk (total : ℚ) (cum : ℚ) : List SKUData → List SKUData
  | [] => []
  | s :: rest =>
    let cum2 := cum + s.annual_value
    { s with abc_class := thresholdClass (cum2 / total) } ::
      abcWalk total cum2 rest

/-- Forced-A edge case of compute_abc: when the walk produced no class-A
record and the list is non-empty, the highest-value record becomes A. -/
def forceA (l : List SKUData) : List SKUData :=
  if l.countP (fun s => s.abc_class == "A") = 0 then
    match l with
    | [] => []
    | s :: t => { s with abc_class := "A" } :: t
  else l

/-- Value annotation pass of compute_abc: resolve the unit cost of every
record and derive its annual consumption value. -/
def abcPrep (skus : List SKUData) (costs : List (String × ViewItem)) :
    List SKUData :=
  skus.map (fun s =>
    let cost := resolveCost costs s.sku_code
    { s with unit_cost := cost, annual_value := s.avg_ship_wk * 52 * cost })

/-- Stable descending sort by annual value (Python sorted, reverse). -/
def abcSorted (skus : List SKUData) (costs : List (String × ViewItem)) :
    List SKUData :=
  (abcPrep skus costs).mergeSort (fun a b => decide (b.annual_value ≤ a.annual_value))

/-- Total annual consumption value, summed over the sorted records. -/
def abcTotal (skus : List SKUData) (costs : List (String × ViewItem)) : ℚ :=
  ((abcSorted skus costs).map (fun s => s.annual_value)).sum

/-- compute_abc: annotate values, sort descending, guard degenerate totals,
walk the cumulative thresholds, then force at least one class-A record. -/
def compute_abc (skus : List SKUData) (costs : List (String × ViewItem)) :
    List SKUData :=
  if abcTotal skus costs ≤ 0 then
    (abcSorted skus costs).map (fun s => { s with abc_class := "C" })
  else forceA (abcWalk (abcTotal skus costs) 0 (abcSorted skus costs))

/-- XYZ threshold for class X. -/
def XYZ_X_THRESHOLD : ℚ := 1/2

/-- XYZ threshold for class Y. -/
def XYZ_Y_THRESHOLD : ℚ := 1

/-- Minimum distinct months of history for a measured CV. -/
def MIN_MONTHS_FOR_XYZ : ℕ := 6

/-- Arithmetic mean, statistics.mean. -/
def listMean (l : List ℚ) : ℚ := l.sum / l.length

/-- Sample variance with the n minus one denominator, as statistics.stdev
squares it (the script only evaluates it on lists of at least two values). -/
def sampleVariance (l : List ℚ) : ℚ :=
  (l.map (fun x => (x - listMean l) ^ 2)).sum / ((l.length : ℚ) - 1)

/-- Classification block of compute_xyz: an unset CV leaves the class
untouched; otherwise compare against the X and Y thresholds, the infinity
sentinel falling into class Z. -/
noncomputable def classifyStep (s : SKUData) : SKUData :=
  match s.cv with
  | .noneV => s
  | .fin x =>
    if x < ((XYZ_X_THRESHOLD : ℚ) : ℝ) then { s with xyz_class := "X" }
    else if x < ((XYZ_Y_THRESHOLD : ℚ) : ℝ) then { s with xyz_class := "Y" }
    else { s with xyz_class := "Z" }
  | .infV => { s with xyz_class := "Z" }

/-- Per-record body of compute_xyz: resolve the monthly histogram, measure
the CV when at least six months of data exist (infinity when the mean is
zero), otherwise estimate it from weekly velocity and mark it estimated;
finally classify. -/
noncomputable def xyzStep (md : List (String × Hist)) (sku : SKUData) : SKUData :=
  let monthly := resolveMonthly md sku.sku_code
  let sku1 :=
    if MIN_MONTHS_FOR_XYZ ≤ monthly.length then
      let values := monthly.map (fun p => p.2)
      let mean_val := listMean values
      if mean_val > 0 then
        let std_val : ℝ :=
          if 1 < values.length then Real.sqrt ((sampleVariance values : ℚ) : ℝ)
          else 0
        { sku with cv := .fin (std_val / ((mean_val : ℚ) : ℝ)),
                   monthly_qty_out := monthly }
      else
        { sku with cv := .infV, monthly_qty_out := monthly }
    else
      if sku.avg_ship_wk ≥ 10 then
        { sku with cv := .fin ((6/10 : ℚ) : ℝ), xyz_estimated := true }
      else if sku.avg_ship_wk ≥ 1 then
        { sku with cv := .fin ((8/10 : ℚ) : ℝ), xyz_estimated := true }
      else if sku.avg_ship_wk > 0 then
        { sku with cv := .fin ((12/10 : ℚ) : ℝ), xyz_estimated := true }
      else
        { sku with cv := .infV, xyz_estimated := true }
  classifyStep sku1

/-- compute_xyz over the whole record set. -/
noncomputable def compute_xyz (skus : List SKUData)
    (md : List (String × Hist)) : List SKUData :=
  skus.map (xyzStep md)

/-- Rank of an ABC class letter, for monotonicity statements. -/
def classRank (c : String) : ℕ :=
  if c = "A" then 0 else if c = "B" then 1 else 2

section Helpers

lemma mergeSort_eq_of_length_one {α : Type} (l : List α) (le : α → α → Bool)
    (h : l.length = 1) : l.mergeSort le = l := by
  obtain ⟨a, rfl⟩ := List.length_eq_one.mp h
  simp

lemma abcWalk_length (total : ℚ) :
    ∀ (cum : ℚ) (l : List SKUData), (abcWalk total cum l).length = l.length := by
  intro cum l
  induction l generalizing cum with
  | nil => rfl
  | cons s rest ih => simp [abcWalk, ih]

lemma abcWalk_getElem (total : ℚ) :
    ∀ (l : List SKUData) (cum : ℚ) (i : ℕ) (hi : i < l.length),
      (abcWalk total cum l)[i]? =
        some { l.get ⟨i, hi⟩ with
               abc_class := thresholdClass
                 ((cum + (((l.take (i+1)).map (fun s => s.annual_value)).sum)) / total) } := by
  intro l
  induction l with
  | nil => intro cum i hi; simp at hi
  | cons s rest ih =>
    intro cum i hi
    cases i with
    | zero => simp [abcWalk]
    | succ n =>
      have hn : n < rest.length := by simpa using hi
      have := ih (cum + s.annual_value) n hn
      simp only [abcWalk, List.getElem?_cons_succ, this, List.take_succ_cons,
        List.map_cons, List.sum_cons, List.get_cons_succ]
      ring_nf

lemma abcWalk_mem (total : ℚ) :
    ∀ (cum : ℚ) (l : List SKUData) (r : SKUData), r ∈ abcWalk total cum l →
      ∃ s ∈ l, r.annual_value = s.annual_value ∧ r.avg_ship_wk = s.avg_ship_wk ∧
        r.unit_cost = s.unit_cost ∧ r.sku_code = s.sku_code ∧
        (r.abc_class = "A" ∨ r.abc_class = "B" ∨ r.abc_class = "C") := by
  intro cum l
  induction l generalizing cum with
  | nil => intro r hr; simp [abcWalk] at hr
  | cons s rest ih =>
    intro r hr
    simp only [abcWalk, List.mem_cons] at hr
    rcases hr with rfl | hr
    · refine ⟨s, by simp, by simp, by simp, by simp, by simp, ?_⟩
      unfold thresholdClass
      split
      · simp
      · split <;> simp
    · obtain ⟨t, ht, h⟩ := ih (cum + s.annual_value) r hr
      exact ⟨t, List.mem_cons_of_mem _ ht, h⟩

lemma forceA_mem (l : List SKUData) (r : SKUData) (hr : r ∈ forceA l) :
    ∃ s ∈ l, r.annual_value = s.annual_value ∧ r.avg_ship_wk = s.avg_ship_wk ∧
      r.unit_cost = s.unit_cost ∧ r.sku_code = s.sku_code ∧
      (r.abc_class = "A" ∨ r.abc_class = s.abc_class) := by
  unfold forceA at hr
  split at hr
  · match l, hr with
    | s :: t, hr =>
      rcases List.mem_cons.mp hr with rfl | h
      · exact ⟨s, by simp, by simp, by simp, by simp, by simp, Or.inl rfl⟩
      · exact ⟨r, List.mem_cons_of_mem _ h, rfl, rfl, rfl, rfl, Or.inr rfl⟩
  · exact ⟨r, hr, rfl, rfl, rfl, rfl, Or.inr rfl⟩

lemma putAssoc_lookup {α : Type} (l : List (String × α)) (k k1 : String) (v : α) :
    (putAssoc l k v).lookup k1 = if k1 = k then some v else l.lookup k1 := by
  induction l with
  | nil =>
    by_cases h : k1 = k
    · subst h; simp [putAssoc]
    · have hb : (k1 == k) = false := beq_eq_false_iff_ne.mpr h
      simp [putAssoc, List.lookup, hb, h]
  | cons p t ih =>
    obtain ⟨k2, v2⟩ := p
    by_cases h2 : k2 = k
    · subst h2
      by_cases h : k1 = k2
      · subst h; simp [putAssoc]
      · have hb : (k1 == k2) = false := beq_eq_false_iff_ne.mpr h
        simp [putAssoc, List.lookup, hb, h]
    · by_cases h : k1 = k2
      · subst h
        have hk : ¬ k1 = k := h2
        simp [putAssoc, List.lookup, h2, hk, ih]
      · have hb : (k1 == k2) = false := beq_eq_false_iff_ne.mpr h
        simp [putAssoc, List.lookup, h2, hb, h, ih]

lemma sum_nonpos_list (l : List ℚ) (h : ∀ x ∈ l, x ≤ 0) : l.sum ≤ 0 := by
  induction l with
  | nil => simp
  | cons a t ih =>
    simp only [List.sum_cons]
    have h1 := h a (List.mem_cons_self a t)
    have h2 := ih (fun x hx => h x (List.mem_cons_of_mem a hx))
    linarith

lemma exists_neg_of_sum_neg (l : List ℚ) (h : l.sum < 0) : ∃ x ∈ l, x < 0 := by
  by_contra hc
  push_neg at hc
  exact absurd (List.sum_nonneg hc) (not_le.mpr h)

lemma cum_prefix_mono (vs : List ℚ) (hs : vs.Pairwise (fun a b => b ≤ a))
    (hT : 0 < vs.sum) (c : ℚ) (hc : c < 1) (i j : ℕ) (hij : i ≤ j)
    (hj : (vs.take (j + 1)).sum ≤ c * vs.sum) :
    (vs.take (i + 1)).sum ≤ c * vs.sum := by
  by_contra hni
  push_neg at hni
  have hseg : (vs.take (j + 1)).sum
      = (vs.take (i + 1)).sum + ((vs.drop (i + 1)).take (j - i)).sum := by
    have hidx : j + 1 = (i + 1) + (j - i) := by omega
    rw [hidx, List.take_add, List.sum_append]
  have hsegneg : ((vs.drop (i + 1)).take (j - i)).sum < 0 := by linarith
  obtain ⟨x, hxmem, hxneg⟩ := exists_neg_of_sum_neg _ hsegneg
  obtain ⟨k, hk, hxk⟩ := List.mem_iff_getElem.mp hxmem
  have hklen : k < j - i ∧ i + 1 + k < vs.length := by
    simp only [List.length_take, List.length_drop, lt_min_iff] at hk
    omega
  obtain ⟨hk1, hk2⟩ := hklen
  have hxval : vs[i + 1 + k] = x := by
    rw [← hxk]
    simp [List.getElem_take, List.getElem_drop]
  have hdropnp : ∀ y ∈ vs.drop (j + 1), y ≤ 0 := by
    intro y hy
    obtain ⟨n, hn, hyn⟩ := List.mem_iff_getElem.mp hy
    have hnlen : j + 1 + n < vs.length := by
      simp only [List.length_drop] at hn
      omega
    have hyval : vs[j + 1 + n] = y := by
      rw [← hyn]
      simp [List.getElem_drop]
    have hord := List.pairwise_iff_getElem.mp hs (i + 1 + k) (j + 1 + n)
      hk2 hnlen (by omega)
    rw [hxval, hyval] at hord
    linarith
  have hsplit := List.sum_take_add_sum_drop vs (j + 1)
  have hd := sum_nonpos_list _ hdropnp
  nlinarith

lemma classRank_le_two (c : String) : classRank c ≤ 2 := by
  unfold classRank
  split_ifs <;> omega

lemma thresholdClass_rank_mono (p q : ℚ)
    (hA : q ≤ ABC_A_THRESHOLD → p ≤ ABC_A_THRESHOLD)
    (hB : q ≤ ABC_B_THRESHOLD → p ≤ ABC_B_THRESHOLD) :
    classRank (thresholdClass p) ≤ classRank (thresholdClass q) := by
  by_cases hqA : q ≤ ABC_A_THRESHOLD
  · have hpA := hA hqA
    simp [thresholdClass, hqA, hpA, classRank]
  · by_cases hqB : q ≤ ABC_B_THRESHOLD
    · have hpB := hB hqB
      by_cases hpA : p ≤ ABC_A_THRESHOLD <;>
        simp [thresholdClass, hqA, hqB, hpA, hpB, classRank]
    · have h2 := classRank_le_two (thresholdClass p)
      simpa [thresholdClass, hqA, hqB, classRank] using h2

lemma abcSorted_pairwise (skus : List SKUData) (costs : List (String × ViewItem)) :
    ((abcSorted skus costs).map (fun s => s.annual_value)).Pairwise
      (fun a b => b ≤ a) := by
  have h := @List.sorted_mergeSort SKUData
    (fun a b => decide (b.annual_value ≤ a.annual_value))
    (by intro a b c hab hbc
        simp only [decide_eq_true_eq] at *
        exact le_trans hbc hab)
    (by intro a b
        simp only [Bool.or_eq_true, decide_eq_true_eq]
        exact le_total b.annual_value a.annual_value)
    (abcPrep skus costs)
  rw [List.pairwise_map]
  unfold abcSorted
  exact h.imp (by intro a b hab; simpa using hab)

lemma abcTotal_eq_vs_sum (skus : List SKUData) (costs : List (String × ViewItem)) :
    abcTotal skus costs = ((abcSorted skus costs).map (fun s => s.annual_value)).sum := rfl

lemma abcWalk_cum_take (skus : List SKUData) (costs : List (String × ViewItem))
    (i : ℕ) :
    (((abcSorted skus costs).take (i + 1)).map (fun s => s.annual_value)).sum
      = ((((abcSorted skus costs).map (fun s => s.annual_value)).take (i + 1))).sum := by
  rw [List.map_take]

lemma abcWalk_rank_pairwise (skus : List SKUData) (costs : List (String × ViewItem))
    (hT : 0 < abcTotal skus costs) :
    (abcWalk (abcTotal skus costs) 0 (abcSorted skus costs)).Pairwise
      (fun a b => classRank a.abc_class ≤ classRank b.abc_class) := by
  rw [List.pairwise_iff_getElem]
  intro i j hi hj hij
  have hleni : i < (abcSorted skus costs).length := by
    simpa [abcWalk_length] using hi
  have hlenj : j < (abcSorted skus costs).length := by
    simpa [abcWalk_length] using hj
  have hgi := abcWalk_getElem (abcTotal skus costs) (abcSorted skus costs) 0 i hleni
  have hgj := abcWalk_getElem (abcTotal skus costs) (abcSorted skus costs) 0 j hlenj
  rw [List.getElem?_eq_getElem hi] at hgi
  rw [List.getElem?_eq_getElem hj] at hgj
  have hci := congrArg SKUData.abc_class (Option.some.inj hgi)
  have hcj := congrArg SKUData.abc_class (Option.some.inj hgj)
  simp only at hci hcj
  rw [hci, hcj]
  have hvs := abcSorted_pairwise skus costs
  have hsum : 0 < ((abcSorted skus costs).map (fun s => s.annual_value)).sum := by
    rw [← abcTotal_eq_vs_sum]; exact hT
  apply thresholdClass_rank_mono
  · intro hqA
    rw [zero_add, div_le_iff₀ hT] at hqA ⊢
    rw [abcWalk_cum_take] at hqA ⊢
    rw [abcTotal_eq_vs_sum] at hqA ⊢
    exact cum_prefix_mono _ hvs hsum _ (by norm_num [ABC_A_THRESHOLD])
      i j (le_of_lt hij) (by linarith [hqA])
  · intro hqB
    rw [zero_add, div_le_iff₀ hT] at hqB ⊢
    rw [abcWalk_cum_take] at hqB ⊢
    rw [abcTotal_eq_vs_sum] at hqB ⊢
    exact cum_prefix_mono _ hvs hsum _ (by norm_num [ABC_B_THRESHOLD])
      i j (le_of_lt hij) (by linarith [hqB])

lemma forceA_rank_pairwise (l : List SKUData)
    (h : l.Pairwise (fun a b => classRank a.abc_class ≤ classRank b.abc_class)) :
    (forceA l).Pairwise (fun a b => classRank a.abc_class ≤ classRank b.abc_class) := by
  unfold forceA
  split
  · match l, h with
    | [], _ => simp
    | s :: t, h =>
      exact List.Pairwise.cons (fun b _ => by simp [classRank]) h.of_cons
  · exact h

lemma thresholdClass_ne_A (p : ℚ) (hp : ¬ p ≤ ABC_A_THRESHOLD) :
    thresholdClass p ≠ "A" := by
  unfold thresholdClass
  rw [if_neg hp]
  split <;> decide

lemma compute_abc_pos (skus : List SKUData) (costs : List (String × ViewItem))
    (hT : 0 < abcTotal skus costs) :
    compute_abc skus costs
      = forceA (abcWalk (abcTotal skus costs) 0 (abcSorted skus costs)) := by
  unfold compute_abc
  rw [if_neg (not_le.mpr hT)]

lemma abcSorted_length (skus : List SKUData) (costs : List (String × ViewItem)) :
    (abcSorted skus costs).length = skus.length := by
  unfold abcSorted abcPrep
  rw [List.length_mergeSort, List.length_map]

lemma forceA_length (l : List SKUData) : (forceA l).length = l.length := by
  unfold forceA
  split
  · match l with
    | [] => rfl
    | s :: t => rfl
  · rfl

end Helpers

/-- Claim C8: when the total annual consumption value is not positive, the
ABC classifier performs no threshold walk and assigns class C to every
record. -/
theorem C8_abc_degenerate_all_C (skus : List SKUData)
    (costs : List (String × ViewItem)) (hT : abcTotal skus costs ≤ 0) :
    compute_abc skus costs
      = (abcSorted skus costs).map (fun s => { s with abc_class := "C" })
    ∧ ∀ r ∈ compute_abc skus costs, r.abc_class = "C" := by
  have h1 : compute_abc skus costs
      = (abcSorted skus costs).map (fun s => { s with abc_class := "C" }) := by
    unfold compute_abc
    rw [if_pos hT]
  refine ⟨h1, ?_⟩
  intro r hr
  rw [h1] at hr
  obtain ⟨s, _, rfl⟩ := List.mem_map.mp hr
  rfl

def skuW8 : SKUData := { sku_code := "PM-100", avg_ship_wk := 4 }

theorem C8_witness :
    abcTotal [skuW8] [] ≤ 0 ∧ ∀ r ∈ compute_abc [skuW8] [], r.abc_class = "C" := by
  have hs : abcSorted [skuW8] [] = abcPrep [skuW8] [] :=
    mergeSort_eq_of_length_one _ _ (by decide)
  have hT : abcTotal [skuW8] [] ≤ 0 := by
    rw [abcTotal_eq_vs_sum, hs]; decide
  exact ⟨hT, (C8_abc_degenerate_all_C [skuW8] [] hT).2⟩

/-- Claim C6: with a non-empty record set and positive total value, at least
one record comes out of the ABC classifier with class A; and when no
cumulative share reaches the 80 percent threshold, the single highest-value
record (the head of the sorted output) is forced to class A. -/
theorem C6_abc_forced_minimum_A (skus : List SKUData)
    (costs : List (String × ViewItem)) (hne : skus ≠ [])
    (hT : 0 < abcTotal skus costs) :
    (∃ r ∈ compute_abc skus costs, r.abc_class = "A")
    ∧ ((∀ (i : ℕ), i < (abcSorted skus costs).length →
          ¬ ((((abcSorted skus costs).take (i + 1)).map
              (fun s => s.annual_value)).sum / abcTotal skus costs
             ≤ ABC_A_THRESHOLD)) →
        (compute_abc skus costs).head?.map (fun s => s.abc_class) = some "A") := by
  have habc := compute_abc_pos skus costs hT
  have hlen : (abcWalk (abcTotal skus costs) 0 (abcSorted skus costs)).length
      = skus.length := by
    rw [abcWalk_length, abcSorted_length]
  have hwne : abcWalk (abcTotal skus costs) 0 (abcSorted skus costs) ≠ [] := by
    intro hnil
    rw [hnil] at hlen
    exact hne (List.length_eq_zero.mp hlen.symm)
  obtain ⟨w, t, hwt⟩ := List.exists_cons_of_ne_nil hwne
  constructor
  · by_cases hcount :
        (abcWalk (abcTotal skus costs) 0 (abcSorted skus costs)).countP
          (fun s => s.abc_class == "A") = 0
    · refine ⟨{ w with abc_class := "A" }, ?_, rfl⟩
      rw [habc]
      unfold forceA
      rw [if_pos hcount, hwt]
      exact List.mem_cons_self _ _
    · obtain ⟨a, ha, hpa⟩ := List.countP_pos_iff.mp (Nat.pos_of_ne_zero hcount)
      refine ⟨a, ?_, by simpa using hpa⟩
      rw [habc]
      unfold forceA
      rw [if_neg hcount]
      exact ha
  · intro hshare
    have hcount :
        (abcWalk (abcTotal skus costs) 0 (abcSorted skus costs)).countP
          (fun s => s.abc_class == "A") = 0 := by
      rw [List.countP_eq_zero]
      intro a ha
      obtain ⟨i, hi, hai⟩ := List.mem_iff_getElem.mp ha
      have hleni : i < (abcSorted skus costs).length := by
        rw [abcWalk_length] at hi
        exact hi
      have hg := abcWalk_getElem (abcTotal skus costs) (abcSorted skus costs)
        0 i hleni
      rw [List.getElem?_eq_getElem hi, hai] at hg
      have hcls := congrArg SKUData.abc_class (Option.some.inj hg)
      simp only at hcls
      rw [zero_add] at hcls
      have hne2 := thresholdClass_ne_A _ (hshare i hleni)
      simp only [beq_iff_eq]
      rw [hcls]
      exact hne2
    rw [habc]
    unfold forceA
    rw [if_pos hcount, hwt]
    simp

def skuW6 : SKUData := { sku_code := "PM-100", avg_ship_wk := 1 }

def costsW6 : List (String × ViewItem) := [("PM-100", { cost := 1 })]

theorem C6_witness :
    (∃ r ∈ compute_abc [skuW6] costsW6, r.abc_class = "A")
    ∧ (compute_abc [skuW6] costsW6).head?.map (fun s => s.abc_class)
        = some "A" := by
  have hs : abcSorted [skuW6] costsW6 = abcPrep [skuW6] costsW6 :=
    mergeSort_eq_of_length_one _ _ (by decide)
  have hT : 0 < abcTotal [skuW6] costsW6 := by
    rw [abcTotal_eq_vs_sum, hs]; decide
  have h := C6_abc_forced_minimum_A [skuW6] costsW6 (by simp) hT
  refine ⟨h.1, h.2 ?_⟩
  intro i hi
  rw [hs] at hi
  have hi0 : i = 0 := by
    have : (abcPrep [skuW6] costsW6).length = 1 := by decide
    omega
  subst hi0
  rw [abcTotal_eq_vs_sum, hs]
  decide

def skuW7 : SKUData := { sku_code := "PM-100", avg_ship_wk := 1 }

def costsW7 : List (String × ViewItem) := [("PM-100", { cost := 1 })]

/-- Counterexample to claim C7 as stated: a single record holds all of the
value, its cumulative share 1 exceeds the 96 percent threshold, so the
stated walk rule makes it class C, yet compute_abc assigns class A (the
forced-minimum-one-A override). -/
theorem C7_counterexample :
    (compute_abc [skuW7] costsW7).map (fun s => s.abc_class) = ["A"]
    ∧ thresholdClass ((52 : ℚ) / 52) = "C" := by
  constructor
  · have hs : abcSorted [skuW7] costsW7 = abcPrep [skuW7] costsW7 :=
      mergeSort_eq_of_length_one _ _ (by decide)
    rw [compute_abc_pos _ _ (by rw [abcTotal_eq_vs_sum, hs]; decide),
      abcTotal_eq_vs_sum, hs]
    decide
  · decide

/-- Claim C7 amended: with positive total value every record receives
exactly one class among A, B and C; the walk over the sorted records
assigns the threshold class of each cumulative share; compute_abc is that
walk followed by the forced-minimum-one-A override; and class boundaries
are monotone along the descending-value order. -/
theorem C7_abc_walk_classes (skus : List SKUData)
    (costs : List (String × ViewItem)) (hT : 0 < abcTotal skus costs) :
    (∀ r ∈ compute_abc skus costs,
        r.abc_class = "A" ∨ r.abc_class = "B" ∨ r.abc_class = "C")
    ∧ (∀ (i : ℕ) (hi : i < (abcSorted skus costs).length),
        (abcWalk (abcTotal skus costs) 0 (abcSorted skus costs))[i]? =
          some { (abcSorted skus costs).get ⟨i, hi⟩ with
                 abc_class := thresholdClass
                   ((((abcSorted skus costs).take (i + 1)).map
                       (fun s => s.annual_value)).sum / abcTotal skus costs) })
    ∧ compute_abc skus costs
        = forceA (abcWalk (abcTotal skus costs) 0 (abcSorted skus costs))
    ∧ (compute_abc skus costs).Pairwise
        (fun a b => classRank a.abc_class ≤ classRank b.abc_class) := by
  have habc := compute_abc_pos skus costs hT
  refine ⟨?_, ?_, habc, ?_⟩
  · intro r hr
    rw [habc] at hr
    obtain ⟨s, hs, _, _, _, _, hclass⟩ := forceA_mem _ _ hr
    obtain ⟨u, _, _, _, _, _, hcu⟩ := abcWalk_mem _ _ _ _ hs
    rcases hclass with h | h
    · exact Or.inl h
    · rw [h]
      exact hcu
  · intro i hi
    have hg := abcWalk_getElem (abcTotal skus costs) (abcSorted skus costs) 0 i hi
    rw [hg, zero_add]
  · rw [habc]
    exact forceA_rank_pairwise _ (abcWalk_rank_pairwise skus costs hT)

theorem C7_witness :
    (∀ r ∈ compute_abc [skuW7] costsW7,
        r.abc_class = "A" ∨ r.abc_class = "B" ∨ r.abc_class = "C")
    ∧ (compute_abc [skuW7] costsW7).Pairwise
        (fun a b => classRank a.abc_class ≤ classRank b.abc_class) := by
  have hs : abcSorted [skuW7] costsW7 = abcPrep [skuW7] costsW7 :=
    mergeSort_eq_of_length_one _ _ (by decide)
  have hT : 0 < abcTotal [skuW7] costsW7 := by
    rw [abcTotal_eq_vs_sum, hs]; decide
  have h := C7_abc_walk_classes [skuW7] costsW7 hT
  exact ⟨h.1, h.2.2.2⟩

def depRows37 : List (List Cell) :=
  [[Cell.text "PM-100", .empty, .num 100, .empty, .empty, .num 20, .empty,
    .empty, .empty, .num 15, .empty, .empty, .empty, .num 105, .empty, .empty,
    .num 3, .num 5],
   [Cell.text "PM-100", .empty, .num 50, .empty, .empty, .num 10, .empty,
    .empty, .empty, .num 8, .empty, .empty, .empty, .num 52, .empty, .empty,
    .num 7, .num 9]]

/-- Claim C3: on a repeated sighting the weekly velocity accumulates, and
weeks-on-hand and warehouse are overwritten exactly when the new sighting
exceeds the accumulated total minus the new value itself (the total already
holding the new value, as the script compares after its in-place addition);
in particular two sightings with shipments 3 then 7 merge to velocity 10
with weeks-on-hand taken from the second sighting. -/
theorem C3_depletion_merge_overwrite :
    (∀ (ex : SKUData) (wh : String) (avg woh beg recv shp ed : ℚ),
       (mergeSighting ex wh avg woh beg recv shp ed).avg_ship_wk
         = ex.avg_ship_wk + avg
       ∧ (mergeSighting ex wh avg woh beg recv shp ed).wks_on_hand
           = (if avg > (ex.avg_ship_wk + avg) - avg then woh
              else ex.wks_on_hand)
       ∧ (mergeSighting ex wh avg woh beg recv shp ed).warehouse
           = (if avg > (ex.avg_ship_wk + avg) - avg then wh
              else ex.warehouse))
    ∧ (parse_depletion depRows37).map
        (fun s => (s.avg_ship_wk, s.wks_on_hand)) = [(10, 9)] := by
  constructor
  · intro ex wh avg woh beg recv shp ed
    simp only [mergeSighting]
    split_ifs with h <;> exact ⟨rfl, rfl, rfl⟩
  · decide

def viGT : ViewItem := { cost := 5 }

/-- Counterexample to claim C2 as stated: a mapping holding only the key AG
is NOT found when queried as AG with the GT suffix appended, because the
strip step removes every trailing G and T character (AGGT strips to A, not
to AG), so the claimed symmetry fails for base codes ending in G or T. -/
theorem C2_counterexample :
    resolveItem [("AG", viGT)] ("AG" ++ "GT") = none
    ∧ rstripGT ("AG" ++ "GT") = "A" := by
  constructor
  · decide
  · decide

lemma rstripGT_append (code : String) (h : endsGT code = false) :
    rstripGT (code ++ "GT") = code := by
  unfold rstripGT
  have hdata : (code ++ "GT").data = code.data ++ ['G', 'T'] := rfl
  rw [hdata, List.reverse_append]
  have hTG : (['G', 'T'].reverse : List Char) = ['T', 'G'] := rfl
  rw [hTG]
  simp only [List.cons_append, List.nil_append]
  rw [List.dropWhile_cons]
  norm_num
  cases hrev : code.data.reverse with
  | nil =>
    have : code.data = [] := by
      have := congrArg List.reverse hrev
      simpa using this
    simp [this]
    cases code
    simp_all
  | cons c rest =>
    have hc : (c == 'G' || c == 'T') = false := by
      unfold endsGT at h
      rw [hrev] at h
      simpa using h
    rw [List.dropWhile_cons, hc]
    simp only [Bool.false_eq_true, if_false]
    rw [← hrev, List.reverse_reverse]

/-- Claim C2 amended: key resolution tries the exact key, then the key with
ALL trailing G and T characters stripped (the script strips a character
set, not one two-character suffix), then the key with GT appended, first
hit winning.  A key present only as code plus GT resolves when queried as
code; the reverse direction holds whenever the base code does not itself
end in G or T; a key absent in all three variants yields none, and the
cost lookup then falls back to zero without an error. -/
theorem C2_key_resolution (m : List (String × ViewItem)) (code : String)
    (v : ViewItem) :
    (m.lookup code = some v → resolveItem m code = some v)
    ∧ (m.lookup code = none → m.lookup (rstripGT code) = none →
        resolveItem m code = m.lookup (code ++ "GT"))
    ∧ (endsGT code = false → m.lookup (code ++ "GT") = none →
        m.lookup code = some v → resolveItem m (code ++ "GT") = some v)
    ∧ (m.lookup code = none → m.lookup (rstripGT code) = none →
        m.lookup (code ++ "GT") = none →
        resolveItem m code = none ∧ resolveCost m code = 0) := by
  refine ⟨?_, ?_, ?_, ?_⟩
  · intro h1
    unfold resolveItem
    rw [h1]
  · intro h1 h2
    unfold resolveItem
    rw [h1, h2]
  · intro hend h1 h2
    unfold resolveItem
    rw [h1, rstripGT_append code hend, h2]
  · intro h1 h2 h3
    constructor
    · unfold resolveItem
      rw [h1, h2, h3]
    · unfold resolveCost
      rw [h1, h2, h3]

theorem C2_witness :
    resolveItem [("ABGT", viGT)] "AB" = List.lookup ("AB" ++ "GT") [("ABGT", viGT)]
    ∧ resolveItem [("AB", viGT)] ("AB" ++ "GT") = some viGT := by
  refine ⟨(C2_key_resolution [("ABGT", viGT)] "AB" viGT).2.1 (by decide) (by decide),
    (C2_key_resolution [("AB", viGT)] "AB" viGT).2.2.1 (by decide) (by decide)
      (by decide)⟩

def viSheetW : List (List Cell) :=
  [[Cell.text "TianJin/WHI - Kent"],
   [Cell.text "PM-100", .text "bracket", .empty, .empty, .empty, .empty,
    .empty, .empty, .empty, .num 5],
   [Cell.text "Dimensional UOM"],
   [Cell.empty, .empty, .text "EA", .num 1, .empty, .empty, .num 5, .num 0,
    .num 0, .empty, .num 2]]

/-- Counterexample to claim C5 as stated: a dimensions row whose width and
height columns read 0 (not positive) still populates the open SKU record,
because the script only tests the length column for positivity. -/
theorem C5_counterexample :
    ((parse_view_item [viSheetW]).lookup "PM-100").map
      (fun it => (it.length_in, it.width_in, it.height_in, it.weight_lbs))
      = some (5, 0, 0, 2) := by
  decide

/-- Claim C5 amended: a row with an empty first cell, while a SKU is open
and the look-ahead flag is armed, populates the open SKU dimension fields
exactly when the unit-of-measure label is non-empty, the unit count is a
non-zero number, the LENGTH column reads positive, and the length field is
still unset (first successful dimensions row wins); width, height and
weight are copied without a positivity test, and the flag is consumed
either way. -/
theorem C5_dimensions_row (st : VIState) (row : List Cell) (sk : String)
    (item : ViewItem)
    (hflag : st.next_is_dimensions = true)
    (hsku : st.current_sku = some sk)
    (hitem : st.items.lookup sk = some item)
    (hempty : strTrim (pyStr (row.getD 0 .empty)) = "") :
    (viStep st row).next_is_dimensions = false
    ∧ (viStep st row).items =
        (if strTrim (pyStr (row.getD 2 .empty)) ≠ "" ∧ numAt row 3 ≠ 0
            ∧ numAt row 6 > 0 ∧ item.length_in = 0 then
          putAssoc st.items sk
            { item with length_in := numAt row 6, width_in := numAt row 7,
                        height_in := numAt row 8, weight_lbs := numAt row 10,
                        dim_uom_units := numAt row 3 }
        else st.items) := by
  have hskip : (skipLabels.any (fun p => strStarts "" p)) = false := by decide
  simp only [viStep, hempty, hskip, hsku, hitem, hflag, Bool.false_eq_true,
    if_false, ite_not, ne_eq, if_true]
  constructor
  · split_ifs <;> rfl
  · by_cases h1 : ¬strTrim (pyStr (row.getD 2 Cell.empty)) = "" ∧ ¬numAt row 3 = 0
    · by_cases h2 : numAt row 6 > 0 ∧ item.length_in = 0
      · rw [if_pos h1, if_pos h2, if_pos ⟨h1.1, h1.2, h2.1, h2.2⟩]
      · rw [if_pos h1, if_neg h2, if_neg (by tauto)]
    · rw [if_neg h1, if_neg (by tauto)]

def stW5 : VIState :=
  { current_sku := some "PM-100", next_is_dimensions := true,
    items := [("PM-100", { cost := 5 })] }

def rowW5 : List Cell :=
  [Cell.empty, .empty, .text "EA", .num 1, .empty, .empty, .num 5, .num 0,
   .num 0, .empty, .num 2]

theorem C5_witness :
    (viStep stW5 rowW5).next_is_dimensions = false
    ∧ (viStep stW5 rowW5).items =
        [("PM-100",
          { cost := 5, weight_lbs := 2, length_in := 5, width_in := 0,
            height_in := 0, dim_uom_units := 1 })] := by
  have h := C5_dimensions_row stW5 rowW5 "PM-100" { cost := 5 }
    rfl rfl (by decide) (by decide)
  refine ⟨h.1, ?_⟩
  rw [h.2]
  decide

section InvariantHelpers

lemma foldl_invariant {α β : Type} (P : α → Prop) (f : α → β → α)
    (hstep : ∀ a b, P a → P (f a b)) :
    ∀ (l : List β) (a : α), P a → P (l.foldl f a) := by
  intro l
  induction l with
  | nil => intro a ha; exact ha
  | cons b t ih => intro a ha; exact ih _ (hstep a b ha)

lemma viStep_cost_pos (st : VIState) (row : List Cell)
    (h : ∀ k it, st.items.lookup k = some it → 0 < it.cost) :
    ∀ k it, (viStep st row).items.lookup k = some it → 0 < it.cost := by
  intro k it hit
  simp only [viStep] at hit
  split at hit
  · exact h k it hit
  · split at hit
    · split at hit
      · split at hit
        · rw [putAssoc_lookup] at hit
          split at hit
          · cases hit
            dsimp only
            assumption
          · exact h k it hit
        · exact h k it hit
      · exact h k it hit
    · split at hit
      · split at hit
        · split at hit
          · split at hit
            · split at hit
              · rw [putAssoc_lookup] at hit
                split at hit
                · cases hit
                  dsimp only
                  exact h _ _ (by assumption)
                · exact h k it hit
              · exact h k it hit
            · exact h k it hit
          · exact h k it hit
        · exact h k it hit
      · exact h k it hit

lemma parse_view_item_cost_pos (sheets : List (List (List Cell))) :
    ∀ k it, (parse_view_item sheets).lookup k = some it → 0 < it.cost := by
  unfold parse_view_item
  apply foldl_invariant
    (P := fun items : List (String × ViewItem) =>
      ∀ k it, items.lookup k = some it → 0 < it.cost)
  · intro items sheet hP
    exact foldl_invariant
      (P := fun st : VIState => ∀ k it, st.items.lookup k = some it → 0 < it.cost)
      viStep viStep_cost_pos sheet { items := items } hP
  · intro k it hit
    simp [List.lookup] at hit

lemma resolveCost_nonneg (costs : List (String × ViewItem))
    (hpos : ∀ k it, costs.lookup k = some it → 0 < it.cost) (code : String) :
    0 ≤ resolveCost costs code := by
  unfold resolveCost
  split
  · exact le_of_lt (hpos _ _ (by assumption))
  · split
    · exact le_of_lt (hpos _ _ (by assumption))
    · split
      · exact le_of_lt (hpos _ _ (by assumption))
      · exact le_refl 0

lemma abcPrep_mem (skus : List SKUData) (costs : List (String × ViewItem))
    (r : SKUData) (hr : r ∈ abcPrep skus costs) :
    ∃ s ∈ skus, r.avg_ship_wk = s.avg_ship_wk
      ∧ r.unit_cost = resolveCost costs s.sku_code
      ∧ r.annual_value = s.avg_ship_wk * 52 * resolveCost costs s.sku_code := by
  unfold abcPrep at hr
  obtain ⟨s, hs, rfl⟩ := List.mem_map.mp hr
  exact ⟨s, hs, rfl, rfl, rfl⟩

lemma abcSorted_mem (skus : List SKUData) (costs : List (String × ViewItem))
    (r : SKUData) (hr : r ∈ abcSorted skus costs) : r ∈ abcPrep skus costs :=
  (List.mergeSort_perm (abcPrep skus costs) _).mem_iff.mp hr

lemma compute_abc_fields (skus : List SKUData) (costs : List (String × ViewItem)) :
    ∀ r ∈ compute_abc skus costs,
      ∃ s ∈ skus, r.avg_ship_wk = s.avg_ship_wk
        ∧ r.unit_cost = resolveCost costs s.sku_code
        ∧ r.annual_value = s.avg_ship_wk * 52 * resolveCost costs s.sku_code := by
  intro r hr
  unfold compute_abc at hr
  split at hr
  · obtain ⟨s1, hs1, rfl⟩ := List.mem_map.mp hr
    obtain ⟨s, hs, h1, h2, h3⟩ := abcPrep_mem _ _ _ (abcSorted_mem _ _ _ hs1)
    exact ⟨s, hs, h1, h2, h3⟩
  · obtain ⟨s1, hs1, hann1, havg1, hcost1, _, _⟩ := forceA_mem _ _ hr
    obtain ⟨s2, hs2, hann2, havg2, hcost2, _, _⟩ := abcWalk_mem _ _ _ _ hs1
    obtain ⟨s, hs, h1, h2, h3⟩ := abcPrep_mem _ _ _ (abcSorted_mem _ _ _ hs2)
    refine ⟨s, hs, ?_, ?_, ?_⟩
    · rw [havg1, havg2, h1]
    · rw [hcost1, hcost2, h2]
    · rw [hann1, hann2, h3]

end InvariantHelpers

lemma compute_abc_nonpos (skus : List SKUData) (costs : List (String × ViewItem))
    (hT : abcTotal skus costs ≤ 0) :
    compute_abc skus costs
      = (abcSorted skus costs).map (fun s => { s with abc_class := "C" }) := by
  unfold compute_abc
  rw [if_pos hT]

def depNeg : List (List Cell) :=
  [[Cell.text "PM-100", .empty, .num 100, .empty, .empty, .num 0, .empty,
    .empty, .empty, .num 0, .empty, .empty, .empty, .num 0, .empty, .empty,
    .num (-2), .num 1]]

def viSheetC4 : List (List Cell) :=
  [[Cell.text "TianJin/WHI - Kent"],
   [Cell.text "PM-100", .text "bracket", .empty, .empty, .empty, .empty,
    .empty, .empty, .empty, .num 5]]

/-- Counterexample to claim C4 as stated: a depletion sheet whose weekly
shipment cell is the negative number -2, joined with an item-master cost of
5, produces annual_consumption_value -520, which is negative; the claimed
invariant does not hold for sheets holding negative numeric cells. -/
theorem C4_counterexample :
    (compute_abc (parse_depletion depNeg) (parse_view_item [viSheetC4])).map
      (fun s => s.annual_value) = [-520]
    ∧ ¬ (0 : ℚ) ≤ -520 := by
  have hs : abcSorted (parse_depletion depNeg) (parse_view_item [viSheetC4])
      = abcPrep (parse_depletion depNeg) (parse_view_item [viSheetC4]) :=
    mergeSort_eq_of_length_one _ _ (by decide)
  constructor
  · rw [compute_abc_nonpos _ _ (by rw [abcTotal_eq_vs_sum, hs]; decide), hs]
    decide
  · norm_num

/-- Claim C4 amended: after ABC computation every record satisfies
annual_consumption_value = avg_weekly_shipments times 52 times unit_cost,
and the value is non-negative whenever every record carries a non-negative
weekly velocity (the item-master reader only ever stores positive costs);
a negative shipment cell propagates to a negative annual value. -/
theorem C4_annual_value (skus : List SKUData)
    (sheets : List (List (List Cell)))
    (hnn : ∀ s ∈ skus, 0 ≤ s.avg_ship_wk) :
    ∀ r ∈ compute_abc skus (parse_view_item sheets),
      r.annual_value = r.avg_ship_wk * 52 * r.unit_cost
      ∧ 0 ≤ r.annual_value := by
  intro r hr
  obtain ⟨s, hsmem, havg, hcost, hann⟩ := compute_abc_fields _ _ r hr
  have hc := resolveCost_nonneg _ (parse_view_item_cost_pos sheets) s.sku_code
  constructor
  · rw [hann, havg, hcost]
  · rw [hann]
    have hs0 := hnn s hsmem
    have h52 : (0 : ℚ) ≤ 52 := by norm_num
    exact mul_nonneg (mul_nonneg hs0 h52) hc

def skuW4 : SKUData := { sku_code := "PM-100", avg_ship_wk := 3 }

theorem C4_witness :
    ∃ r ∈ compute_abc [skuW4] (parse_view_item [viSheetC4]),
      r.annual_value = r.avg_ship_wk * 52 * r.unit_cost
      ∧ 0 ≤ r.annual_value := by
  have hs : abcSorted [skuW4] (parse_view_item [viSheetC4])
      = abcPrep [skuW4] (parse_view_item [viSheetC4]) :=
    mergeSort_eq_of_length_one _ _ (by decide)
  have hT : 0 < abcTotal [skuW4] (parse_view_item [viSheetC4]) := by
    rw [abcTotal_eq_vs_sum, hs]
    decide
  have h := C4_annual_value [skuW4] [viSheetC4]
    (by intro s hsm; rw [List.mem_singleton.mp hsm]; decide)
  have hne : compute_abc [skuW4] (parse_view_item [viSheetC4]) ≠ [] := by
    rw [compute_abc_pos _ _ hT]
    intro hc
    have hlen := congrArg List.length hc
    rw [forceA_length, abcWalk_length, abcSorted_length] at hlen
    simp at hlen
  obtain ⟨r, t, hrt⟩ := List.exists_cons_of_ne_nil hne
  have hmem : r ∈ compute_abc [skuW4] (parse_view_item [viSheetC4]) := by
    rw [hrt]
    exact List.mem_cons_self _ _
  exact ⟨r, hmem, h r hmem⟩

def actFileW9 : List (List Cell) :=
  [[Cell.empty, .text "PM-100", .empty, .empty, .num 1],
   [Cell.empty, .empty, .empty, .empty, .empty, .date 2024 1 5, .empty,
    .text "ADJ-002", .empty, .empty, .num 4],
   [Cell.empty, .empty, .empty, .empty, .empty, .date 2024 1 6, .empty,
    .text "MV1002", .empty, .empty, .num 3],
   [Cell.empty, .empty, .empty, .empty, .empty, .date 2024 1 7, .empty,
    .text "SO-4471", .empty, .empty, .num 12]]

/-- Claim C9: a transaction row whose lower-cased reference contains the
adjustment substring, or starts with the warehouse-move marker, only bumps
the respective filter counter and never touches the monthly histogram; a
surviving row with positive quantity-out adds that quantity into the bucket
of the open SKU for the row's year-month; in particular ADJ-002 and MV1002
are excluded while SO-4471 with quantity 12 lands in its month bucket. -/
theorem C9_transaction_filter (st : ActState) (row : List Cell) (sk : String)
    (y m : ℕ)
    (hsku : st.current_sku = some sk)
    (hhdr : actHeaderCond row = false)
    (hskip : dateSkip (strTrim (pyStr (row.getD 5 .empty))) = false)
    (hdate : rowDate (row.getD 5 .empty) = some (y, m)) :
    (isAdjRef (refOf row) = true →
       (actStep st row).monthly_out = st.monthly_out
       ∧ (actStep st row).filtered_adjustments = st.filtered_adjustments + 1
       ∧ (actStep st row).total_transactions = st.total_transactions)
    ∧ (isAdjRef (refOf row) = false → isMoveRef (refOf row) = true →
       (actStep st row).monthly_out = st.monthly_out
       ∧ (actStep st row).filtered_moves = st.filtered_moves + 1
       ∧ (actStep st row).total_transactions = st.total_transactions)
    ∧ (isAdjRef (refOf row) = false → isMoveRef (refOf row) = false →
       0 < numAt row 10 →
       (actStep st row).monthly_out = bumpSku st.monthly_out sk (y, m) (numAt row 10)
       ∧ (actStep st row).total_transactions = st.total_transactions + 1)
    ∧ ((parse_activity_reports [actFileW9]).monthly_out
         = [("PM-100", [((2024, 1), 12)])]
       ∧ (parse_activity_reports [actFileW9]).filtered_adjustments = 1
       ∧ (parse_activity_reports [actFileW9]).filtered_moves = 1) := by
  have hact : actStep st row =
      (let ref := refOf row
       if isAdjRef ref then
         { st with filtered_adjustments := st.filtered_adjustments + 1 }
       else if isMoveRef ref then
         { st with filtered_moves := st.filtered_moves + 1 }
       else
         let qty := numAt row 10
         if qty > 0 then
           { st with monthly_out := bumpSku st.monthly_out sk (y, m) qty,
                     total_transactions := st.total_transactions + 1 }
         else st) := by
    simp only [actStep, hhdr, Bool.false_eq_true, if_false, hsku, hskip, hdate]
  rw [hact]
  refine ⟨?_, ?_, ?_, by decide⟩
  · intro hadj
    simp only [hadj, if_true]
    exact ⟨trivial, trivial, trivial⟩
  · intro hadj hmv
    simp only [hadj, hmv, Bool.false_eq_true, if_false, if_true]
    exact ⟨trivial, trivial, trivial⟩
  · intro hadj hmv hqty
    simp only [hadj, hmv, Bool.false_eq_true, if_false, if_pos hqty]
    exact ⟨trivial, trivial⟩

def stW9 : ActState := { current_sku := some "PM-100" }

def rowW9 : List Cell :=
  [Cell.empty, .empty, .empty, .empty, .empty, .date 2024 1 5, .empty,
   .text "ADJ-002", .empty, .empty, .num 4]

theorem C9_witness :
    ((actStep stW9 rowW9).monthly_out = stW9.monthly_out
      ∧ (actStep stW9 rowW9).filtered_adjustments
          = stW9.filtered_adjustments + 1
      ∧ (actStep stW9 rowW9).total_transactions = stW9.total_transactions)
    ∧ (parse_activity_reports [actFileW9]).monthly_out
        = [("PM-100", [((2024, 1), 12)])] := by
  have h := C9_transaction_filter stW9 rowW9 "PM-100" 2024 1
    rfl (by decide) (by decide) (by decide)
  exact ⟨h.1 (by decide), h.2.2.2.1⟩

lemma classifyStep_fields (s : SKUData) :
    (classifyStep s).cv = s.cv
    ∧ (classifyStep s).xyz_estimated = s.xyz_estimated
    ∧ (classifyStep s).monthly_qty_out = s.monthly_qty_out := by
  cases hcv : s.cv with
  | noneV => simp [classifyStep, hcv]
  | fin x =>
    simp only [classifyStep, hcv]
    split_ifs <;> simp [hcv]
  | infV => simp [classifyStep, hcv]

lemma classifyStep_class_fin (s : SKUData) (x : ℝ) (hcv : s.cv = CVal.fin x) :
    (classifyStep s).xyz_class =
      (if x < ((XYZ_X_THRESHOLD : ℚ) : ℝ) then "X"
       else if x < ((XYZ_Y_THRESHOLD : ℚ) : ℝ) then "Y" else "Z") := by
  unfold classifyStep
  rw [hcv]
  dsimp only
  split_ifs <;> rfl

lemma classifyStep_class_inf (s : SKUData) (hcv : s.cv = CVal.infV) :
    (classifyStep s).xyz_class = "Z" := by
  unfold classifyStep
  rw [hcv]

/-- Estimated-path record update of compute_xyz, named so that statements
about it stay on one line: the CV is set and the estimated flag raised. -/
def estSKU (sku : SKUData) (c : CVal) : SKUData :=
  { sku with cv := c, xyz_estimated := true }

lemma xyzStep_estimated (md : List (String × Hist)) (sku : SKUData)
    (hlt : ¬ MIN_MONTHS_FOR_XYZ ≤ (resolveMonthly md sku.sku_code).length) :
    xyzStep md sku =
      (if 10 ≤ sku.avg_ship_wk then classifyStep (estSKU sku (CVal.fin ((6/10 : ℚ) : ℝ)))
       else if 1 ≤ sku.avg_ship_wk then classifyStep (estSKU sku (CVal.fin ((8/10 : ℚ) : ℝ)))
       else if 0 < sku.avg_ship_wk then classifyStep (estSKU sku (CVal.fin ((12/10 : ℚ) : ℝ)))
       else classifyStep (estSKU sku CVal.infV)) := by
  simp only [xyzStep, estSKU]
  rw [if_neg hlt]
  split_ifs <;> rfl

lemma estSKU_cv (sku : SKUData) (c : CVal) : (estSKU sku c).cv = c := rfl

lemma estSKU_estimated (sku : SKUData) (c : CVal) :
    (estSKU sku c).xyz_estimated = true := rfl

def mdW1 : List (String × Hist) :=
  [("PM-100",
    [((2024, 1), 5), ((2024, 2), 5), ((2024, 3), 5), ((2024, 4), 5),
     ((2024, 5), 5)])]

def skuW1 : SKUData := { sku_code := "PM-100", avg_ship_wk := 15 }

/-- Counterexample to claim C1 as stated: a SKU with exactly 5 months of
history and weekly velocity 15 does receive the estimated CV 0.6, but its
class is Y, not X, because the X threshold requires CV strictly below 0.5. -/
theorem C1_counterexample :
    (xyzStep mdW1 skuW1).cv = CVal.fin ((6/10 : ℚ) : ℝ)
    ∧ (xyzStep mdW1 skuW1).xyz_estimated = true
    ∧ (xyzStep mdW1 skuW1).xyz_class ≠ "X"
    ∧ (xyzStep mdW1 skuW1).xyz_class = "Y" := by
  have hx : xyzStep mdW1 skuW1
      = classifyStep (estSKU skuW1 (CVal.fin ((6/10 : ℚ) : ℝ))) := by
    rw [xyzStep_estimated mdW1 skuW1 (by decide), if_pos (by decide)]
  have hf := classifyStep_fields (estSKU skuW1 (CVal.fin ((6/10 : ℚ) : ℝ)))
  have hcls := classifyStep_class_fin (estSKU skuW1 (CVal.fin ((6/10 : ℚ) : ℝ)))
    ((6/10 : ℚ) : ℝ) rfl
  rw [if_neg (by norm_num [XYZ_X_THRESHOLD]),
    if_pos (by norm_num [XYZ_Y_THRESHOLD])] at hcls
  refine ⟨by rw [hx, hf.1, estSKU_cv], by rw [hx, hf.2.1, estSKU_estimated],
    ?_, by rw [hx, hcls]⟩
  rw [hx, hcls]
  decide

/-- Claim C1 amended: with fewer than 6 distinct months of resolved history
the XYZ classifier estimates the CV by velocity tier, velocity at least 10
giving CV 0.6 and class Y (not X: the X threshold requires CV below 0.5),
at least 1 giving CV 0.8 and class Y, positive below 1 giving CV 1.2 and
class Z, and zero velocity giving the infinity sentinel and class Z, with
xyz_is_estimated set in every tier. -/
theorem C1_xyz_estimated_tiers (md : List (String × Hist)) (sku : SKUData)
    (hshort : (resolveMonthly md sku.sku_code).length < MIN_MONTHS_FOR_XYZ) :
    (xyzStep md sku).xyz_estimated = true
    ∧ (10 ≤ sku.avg_ship_wk →
        (xyzStep md sku).cv = CVal.fin ((6/10 : ℚ) : ℝ)
        ∧ (xyzStep md sku).xyz_class = "Y")
    ∧ (1 ≤ sku.avg_ship_wk → sku.avg_ship_wk < 10 →
        (xyzStep md sku).cv = CVal.fin ((8/10 : ℚ) : ℝ)
        ∧ (xyzStep md sku).xyz_class = "Y")
    ∧ (0 < sku.avg_ship_wk → sku.avg_ship_wk < 1 →
        (xyzStep md sku).cv = CVal.fin ((12/10 : ℚ) : ℝ)
        ∧ (xyzStep md sku).xyz_class = "Z")
    ∧ (sku.avg_ship_wk = 0 →
        (xyzStep md sku).cv = CVal.infV
        ∧ (xyzStep md sku).xyz_class = "Z") := by
  have hstep := xyzStep_estimated md sku (not_le.mpr hshort)
  by_cases h10 : 10 ≤ sku.avg_ship_wk
  · rw [if_pos h10] at hstep
    have hf := classifyStep_fields (estSKU sku (CVal.fin ((6/10 : ℚ) : ℝ)))
    have hcls := classifyStep_class_fin (estSKU sku (CVal.fin ((6/10 : ℚ) : ℝ)))
      ((6/10 : ℚ) : ℝ) rfl
    rw [if_neg (by norm_num [XYZ_X_THRESHOLD]),
      if_pos (by norm_num [XYZ_Y_THRESHOLD])] at hcls
    refine ⟨by rw [hstep, hf.2.1, estSKU_estimated],
      fun _ => ⟨by rw [hstep, hf.1, estSKU_cv], by rw [hstep, hcls]⟩, ?_, ?_, ?_⟩
    · intro _ hc
      exact absurd h10 (not_le.mpr hc)
    · intro _ hc
      exact absurd h10 (not_le.mpr (lt_trans hc (by norm_num)))
    · intro hc
      rw [hc] at h10
      norm_num at h10
  · rw [if_neg h10] at hstep
    by_cases h1 : 1 ≤ sku.avg_ship_wk
    · rw [if_pos h1] at hstep
      have hf := classifyStep_fields (estSKU sku (CVal.fin ((8/10 : ℚ) : ℝ)))
      have hcls := classifyStep_class_fin (estSKU sku (CVal.fin ((8/10 : ℚ) : ℝ)))
        ((8/10 : ℚ) : ℝ) rfl
      rw [if_neg (by norm_num [XYZ_X_THRESHOLD]),
        if_pos (by norm_num [XYZ_Y_THRESHOLD])] at hcls
      refine ⟨by rw [hstep, hf.2.1, estSKU_estimated], fun hc => absurd hc h10,
        fun _ _ => ⟨by rw [hstep, hf.1, estSKU_cv], by rw [hstep, hcls]⟩, ?_, ?_⟩
      · intro _ hc
        exact absurd h1 (not_le.mpr hc)
      · intro hc
        rw [hc] at h1
        norm_num at h1
    · rw [if_neg h1] at hstep
      by_cases h0 : 0 < sku.avg_ship_wk
      · rw [if_pos h0] at hstep
        have hf := classifyStep_fields (estSKU sku (CVal.fin ((12/10 : ℚ) : ℝ)))
        have hcls := classifyStep_class_fin (estSKU sku (CVal.fin ((12/10 : ℚ) : ℝ)))
          ((12/10 : ℚ) : ℝ) rfl
        rw [if_neg (by norm_num [XYZ_X_THRESHOLD]),
          if_neg (by norm_num [XYZ_Y_THRESHOLD])] at hcls
        refine ⟨by rw [hstep, hf.2.1, estSKU_estimated], fun hc => absurd hc h10,
          fun hc _ => absurd hc h1,
          fun _ _ => ⟨by rw [hstep, hf.1, estSKU_cv], by rw [hstep, hcls]⟩, ?_⟩
        intro hc
        rw [hc] at h0
        norm_num at h0
      · rw [if_neg h0] at hstep
        have hf := classifyStep_fields (estSKU sku CVal.infV)
        have hcls := classifyStep_class_inf (estSKU sku CVal.infV) rfl
        exact ⟨by rw [hstep, hf.2.1, estSKU_estimated], fun hc => absurd hc h10,
          fun hc _ => absurd hc h1, fun hc _ => absurd hc h0,
          fun _ => ⟨by rw [hstep, hf.1, estSKU_cv], by rw [hstep, hcls]⟩⟩

theorem C1_witness :
    (xyzStep [] skuW1).xyz_estimated = true
    ∧ (xyzStep [] skuW1).cv = CVal.fin ((6/10 : ℚ) : ℝ)
    ∧ (xyzStep [] skuW1).xyz_class = "Y" := by
  have h := C1_xyz_estimated_tiers [] skuW1 (by decide)
  exact ⟨h.1, (h.2.1 (by decide)).1, (h.2.1 (by decide)).2⟩

def histInv (m : List (String × Hist)) : Prop :=
  ∀ sk h, m.lookup sk = some h → h ≠ [] ∧ ∀ p ∈ h, 0 < p.2

lemma bump_pos (h : Hist) (k : ℕ × ℕ) (q : ℚ) (hq : 0 < q)
    (hh : ∀ p ∈ h, 0 < p.2) :
    bump h k q ≠ [] ∧ ∀ p ∈ bump h k q, 0 < p.2 := by
  induction h with
  | nil =>
    refine ⟨by simp [bump], ?_⟩
    intro p hp
    simp [bump] at hp
    rw [hp]
    exact hq
  | cons a t ih =>
    obtain ⟨k1, v⟩ := a
    by_cases hk : k1 = k
    · refine ⟨by simp [bump, hk], ?_⟩
      intro p hp
      simp only [bump, if_pos hk] at hp
      rcases List.mem_cons.mp hp with rfl | hp
      · have := hh (k1, v) (List.mem_cons_self _ _)
        simp only at this ⊢
        linarith
      · exact hh p (List.mem_cons_of_mem _ hp)
    · refine ⟨by simp [bump, hk], ?_⟩
      intro p hp
      simp only [bump, if_neg hk] at hp
      rcases List.mem_cons.mp hp with rfl | hp
      · exact hh _ (List.mem_cons_self _ _)
      · exact (ih (fun p hp => hh p (List.mem_cons_of_mem _ hp))).2 p hp

lemma bumpSku_lookup (sk : String) (k : ℕ × ℕ) (q : ℚ) :
    ∀ (m : List (String × Hist)) (sk1 : String),
      (bumpSku m sk k q).lookup sk1 =
        if sk1 = sk then some (bump ((m.lookup sk).getD []) k q)
        else m.lookup sk1 := by
  intro m
  induction m with
  | nil =>
    intro sk1
    by_cases h : sk1 = sk
    · subst h; simp [bumpSku]
    · have hb : (sk1 == sk) = false := beq_eq_false_iff_ne.mpr h
      simp [bumpSku, List.lookup, hb, h]
  | cons p t ih =>
    obtain ⟨s, hh⟩ := p
    intro sk1
    by_cases hs : s = sk
    · subst hs
      by_cases h : sk1 = s
      · subst h; simp [bumpSku]
      · have hb : (sk1 == s) = false := beq_eq_false_iff_ne.mpr h
        simp [bumpSku, List.lookup, hb, h]
    · have hbsk : (sk == s) = false :=
        beq_eq_false_iff_ne.mpr (fun hc => hs hc.symm)
      by_cases h : sk1 = s
      · subst h
        have hb2 : ¬ sk1 = sk := fun hc => hs (hc ▸ rfl)
        simp [bumpSku, List.lookup, hs, hb2, hbsk, ih]
      · have hb : (sk1 == s) = false := beq_eq_false_iff_ne.mpr h
        simp [bumpSku, List.lookup, hs, hb, hbsk, h, ih]

lemma bumpSku_inv (m : List (String × Hist)) (sk : String) (k : ℕ × ℕ) (q : ℚ)
    (hm : histInv m) (hq : 0 < q) : histInv (bumpSku m sk k q) := by
  intro sk1 h hl
  rw [bumpSku_lookup] at hl
  split at hl
  · cases hl
    rcases h0 : m.lookup sk with _ | h1
    · exact bump_pos [] k q hq (by intro p hp; simp at hp)
    · exact bump_pos h1 k q hq (hm sk h1 h0).2
  · exact hm sk1 h hl

lemma actStep_inv (st : ActState) (row : List Cell)
    (h : histInv st.monthly_out) : histInv (actStep st row).monthly_out := by
  simp only [actStep]
  split
  · exact h
  · split
    · exact h
    · split
      · exact h
      · split
        · exact h
        · split
          · exact h
          · split
            · exact h
            · split
              · exact bumpSku_inv _ _ _ _ h (by assumption)
              · exact h

lemma parse_activity_inv (files : List (List (List Cell))) :
    histInv (parse_activity_reports files).monthly_out := by
  unfold parse_activity_reports
  apply foldl_invariant (P := fun st : ActState => histInv st.monthly_out)
  · intro st file hst
    exact foldl_invariant (P := fun st : ActState => histInv st.monthly_out)
      actStep actStep_inv file { st with current_sku := none } hst
  · intro sk h hl
    simp [List.lookup] at hl

lemma resolveMonthly_sources (md : List (String × Hist)) (code : String)
    (hne : resolveMonthly md code ≠ []) :
    md.lookup code = some (resolveMonthly md code)
    ∨ md.lookup (rstripGT code) = some (resolveMonthly md code)
    ∨ md.lookup (code ++ "GT") = some (resolveMonthly md code) := by
  simp only [resolveMonthly] at hne ⊢
  by_cases h2 : (if (md.lookup code).getD [] = []
      then (md.lookup (rstripGT code)).getD []
      else (md.lookup code).getD []) = []
  · rw [if_pos h2] at hne ⊢
    rcases h3 : md.lookup (code ++ "GT") with _ | m3
    · rw [h3] at hne
      simp at hne
    · right; right; rfl
  · rw [if_neg h2] at hne ⊢
    by_cases h1 : (md.lookup code).getD [] = []
    · rw [if_pos h1] at h2 ⊢
      rcases h2b : md.lookup (rstripGT code) with _ | m2
      · rw [h2b] at h2
        simp at h2
      · right; left; rfl
    · rw [if_neg h1] at h2 ⊢
      rcases h0 : md.lookup code with _ | m1
      · rw [h0] at h1
        simp at h1
      · left; rfl

def measSKU (sku : SKUData) (monthly : Hist) (x : ℝ) : SKUData :=
  { sku with cv := CVal.fin x, monthly_qty_out := monthly }

def measSKUinf (sku : SKUData) (monthly : Hist) : SKUData :=
  { sku with cv := CVal.infV, monthly_qty_out := monthly }

lemma xyzStep_measured (md : List (String × Hist)) (sku : SKUData)
    (hlong : MIN_MONTHS_FOR_XYZ ≤ (resolveMonthly md sku.sku_code).length) :
    xyzStep md sku =
      (if listMean ((resolveMonthly md sku.sku_code).map (fun p => p.2)) > 0 then
        classifyStep (measSKU sku (resolveMonthly md sku.sku_code)
          ((if 1 < ((resolveMonthly md sku.sku_code).map (fun p => p.2)).length
            then Real.sqrt ((sampleVariance ((resolveMonthly md sku.sku_code).map (fun p => p.2)) : ℚ) : ℝ)
            else 0)
           / ((listMean ((resolveMonthly md sku.sku_code).map (fun p => p.2)) : ℚ) : ℝ)))
      else classifyStep (measSKUinf sku (resolveMonthly md sku.sku_code))) := by
  simp only [xyzStep, measSKU, measSKUinf]
  rw [if_pos hlong]
  split_ifs <;> rfl

/-- Claim C10: every quantity in every histogram the activity aggregator
produces is strictly positive, so any SKU resolved on the measured XYZ path
has a strictly positive monthly mean, the mean-zero infinity branch of the
measured path is unreachable, and the measured coefficient of variation is
a finite non-negative value. -/
theorem C10_measured_cv_safe (files : List (List (List Cell))) (sku : SKUData)
    (hlong : MIN_MONTHS_FOR_XYZ
        ≤ (resolveMonthly (parse_activity_reports files).monthly_out
            sku.sku_code).length) :
    (∀ sk h, (parse_activity_reports files).monthly_out.lookup sk = some h →
        h ≠ [] ∧ ∀ p ∈ h, 0 < p.2)
    ∧ 0 < listMean ((resolveMonthly (parse_activity_reports files).monthly_out
        sku.sku_code).map (fun p => p.2))
    ∧ (∃ x : ℝ, (xyzStep (parse_activity_reports files).monthly_out sku).cv
          = CVal.fin x ∧ 0 ≤ x) := by
  have hinv := parse_activity_inv files
  set md := (parse_activity_reports files).monthly_out with hmd
  have hne : resolveMonthly md sku.sku_code ≠ [] := by
    intro hc
    rw [hc] at hlong
    simp [MIN_MONTHS_FOR_XYZ] at hlong
  have hsrc := resolveMonthly_sources md sku.sku_code hne
  have hpos : ∀ p ∈ resolveMonthly md sku.sku_code, 0 < p.2 := by
    rcases hsrc with h | h | h
    · exact (hinv _ _ h).2
    · exact (hinv _ _ h).2
    · exact (hinv _ _ h).2
  have hvalpos : ∀ x ∈ (resolveMonthly md sku.sku_code).map (fun p => p.2),
      0 < x := by
    intro x hx
    obtain ⟨p, hp, rfl⟩ := List.mem_map.mp hx
    exact hpos p hp
  have hmean : 0 < listMean ((resolveMonthly md sku.sku_code).map
      (fun p => p.2)) := by
    unfold listMean
    apply div_pos
    · refine List.sum_pos _ hvalpos ?_
      intro hc
      exact hne (by simpa using congrArg List.length hc)
    · simp only [List.length_map]
      exact_mod_cast List.length_pos.mpr hne
  refine ⟨hinv, hmean, ?_⟩
  rw [xyzStep_measured md sku hlong, if_pos hmean]
  have hf := classifyStep_fields (measSKU sku (resolveMonthly md sku.sku_code)
    ((if 1 < ((resolveMonthly md sku.sku_code).map (fun p => p.2)).length
      then Real.sqrt ((sampleVariance ((resolveMonthly md sku.sku_code).map (fun p => p.2)) : ℚ) : ℝ)
      else 0)
     / ((listMean ((resolveMonthly md sku.sku_code).map (fun p => p.2)) : ℚ) : ℝ)))
  refine ⟨_, by rw [hf.1]; rfl, ?_⟩
  apply div_nonneg
  · split_ifs
    · exact Real.sqrt_nonneg _
    · exact le_refl 0
  · exact le_of_lt (by exact_mod_cast hmean)

def actFileW10 : List (List Cell) :=
  [[Cell.empty, .text "PM-100", .empty, .empty, .num 1],
   [Cell.empty, .empty, .empty, .empty, .empty, .date 2024 1 7, .empty,
    .text "SO-1001", .empty, .empty, .num 12],
   [Cell.empty, .empty, .empty, .empty, .empty, .date 2024 2 7, .empty,
    .text "SO-1002", .empty, .empty, .num 10],
   [Cell.empty, .empty, .empty, .empty, .empty, .date 2024 3 7, .empty,
    .text "SO-1003", .empty, .empty, .num 9],
   [Cell.empty, .empty, .empty, .empty, .empty, .date 2024 4 7, .empty,
    .text "SO-1004", .empty, .empty, .num 11],
   [Cell.empty, .empty, .empty, .empty, .empty, .date 2024 5 7, .empty,
    .text "SO-1005", .empty, .empty, .num 8],
   [Cell.empty, .empty, .empty, .empty, .empty, .date 2024 6 7, .empty,
    .text "SO-1006", .empty, .empty, .num 12]]

def skuW10 : SKUData := { sku_code := "PM-100" }

theorem C10_witness :
    0 < listMean ((resolveMonthly (parse_activity_reports [actFileW10]).monthly_out
      skuW10.sku_code).map (fun p => p.2))
    ∧ (∃ x : ℝ, (xyzStep (parse_activity_reports [actFileW10]).monthly_out
        skuW10).cv = CVal.fin x ∧ 0 ≤ x) := by
  have h := C10_measured_cv_safe [actFileW10] skuW10 (by decide)
  exact ⟨h.2.1, h.2.2⟩
